import Mathlib

/-!
Verification development for the LocalDesk runner/executor core.

The development shallowly embeds the TypeScript sources:
- `src/electron/libs/tools-executor.ts` (path confinement, tool dispatch),
- the OpenAI-compatible runner (`getTools`, `runClaude`, prompt loader).

JavaScript strings are modelled as Lean `String` (manipulated through their
`List Char` data), machine behaviour such as `||` falsiness of the empty
string is modelled explicitly, and external collaborators (tool bodies,
`JSON.parse`, prompt template files, the model's streamed responses, the
abort flag's schedule) are parameters of the embedding.
-/

namespace LocalDesk

/-! ## JS string primitives, modelled on the character list -/

/-- JS `String.prototype.startsWith`. -/
def strStartsWith (s p : String) : Bool := p.data.isPrefixOf s.data

/-- JS `String.prototype.endsWith`. -/
def strEndsWith (s p : String) : Bool := p.data.isSuffixOf s.data

/-- JS `String.prototype.trim`. -/
def jsTrim (s : String) : String :=
  String.mk (((s.data.dropWhile Char.isWhitespace).reverse.dropWhile Char.isWhitespace).reverse)

/-- JS `x || fallback` for an optional string; `undefined` and `""` are falsy. -/
def jsOrStr (x : Option String) (fallback : String) : String :=
  match x with
  | some s => if s = "" then fallback else s
  | none => fallback

/-! ## POSIX path semantics used by `tools-executor.ts`

`path.resolve`, `path.relative` and `path.isAbsolute` from Node's `path`
module (POSIX flavour), as used by `ToolExecutor`.  The executor's `cwd`
field is already resolved (absolute) by the constructor. -/

/-- Splitting a string on `/`, exactly like JS `s.split('/')`. -/
def splitSegsAux : List Char → List Char → List String
  | [], cur => [String.mk cur.reverse]
  | c :: rest, cur =>
    if c = '/' then String.mk cur.reverse :: splitSegsAux rest []
    else splitSegsAux rest (c :: cur)

/-- Segments of a path string (including empty segments from repeated `/`). -/
def splitSegs (s : String) : List String := splitSegsAux s.data []

/-- Joining segments with `/`. -/
def joinSegs : List String → String
  | [] => ""
  | s :: rest => rest.foldl (fun a b => a ++ "/" ++ b) s

/-- Node `path.posix.isAbsolute`. -/
def isAbsolute (s : String) : Bool := strStartsWith s "/"

/-- Normalisation of an absolute path's segment list: empty and `.` segments
are dropped, `..` pops the previous segment (or is dropped at the root). -/
def normSegs (segs : List String) : List String :=
  segs.foldl
    (fun acc seg =>
      if seg = "" then acc
      else if seg = "." then acc
      else if seg = ".." then acc.dropLast
      else acc ++ [seg])
    []

/-- Node `path.posix.resolve(cwd, p)` for an absolute `cwd` (the executor's
`cwd` is absolute: the constructor stores `resolve(cwd)`). -/
def resolvePosix (cwd p : String) : String :=
  let joined := if isAbsolute p then p else cwd ++ "/" ++ p
  "/" ++ joinSegs (normSegs (splitSegs joined))

/-- Drops the common leading segments of two segment lists. -/
def dropCommon : List String → List String → List String × List String
  | a :: as, b :: bs =>
    if a = b then dropCommon as bs else (a :: as, b :: bs)
  | as, bs => (as, bs)

/-- Node `path.posix.relative(fromPath, toPath)` for absolute arguments:
climb out of the non-shared part of `fromPath` with `..` segments and then
descend into the non-shared part of `toPath`. -/
def relativePosix (fromPath toPath : String) : String :=
  let f := normSegs (splitSegs fromPath)
  let t := normSegs (splitSegs toPath)
  let p := dropCommon f t
  joinSegs (List.replicate p.1.length ".." ++ p.2)

/-! ## `ToolExecutor.isPathSafe` (tools-executor.ts, lines 40–52) -/

/-- `ToolExecutor.isPathSafe`: resolve the candidate against the working
directory, take the relative form, and accept unless it starts with the
two-character string `..` or is absolute.  Translated from
`tools-executor.ts` lines 40–52. -/
def isPathSafe (cwd filePath : String) : Bool :=
  let absolutePath := resolvePosix cwd filePath
  let relativePath := relativePosix cwd absolutePath
  !(strStartsWith relativePath "..") && !(isAbsolute relativePath)

/-- Does the path string begin with a parent-directory segment, i.e. is its
first `/`-separated segment literally `..`? -/
def firstSegIsParent (s : String) : Bool :=
  match splitSegs s with
  | seg :: _ => seg = ".."
  | [] => false

/-- C1's safety predicate read as written: the relative form of the resolved
path does not begin with a parent-directory segment and is not absolute. -/
def pathSafeSpecSegment (cwd filePath : String) : Bool :=
  let rel := relativePosix cwd (resolvePosix cwd filePath)
  !(firstSegIsParent rel) && !(isAbsolute rel)

/-- The amended safety predicate: the relative form of the resolved path
does not begin with the string `..` and is not absolute. -/
def pathSafeSpecMarker (cwd filePath : String) : Bool :=
  let rel := relativePosix cwd (resolvePosix cwd filePath)
  !(strStartsWith rel "..") && !(isAbsolute rel)

/-! ## `ToolExecutor.executeTool` (tools-executor.ts, lines 61–165)

Individual tool bodies (bash-tool.ts, read-tool.ts, …) are external to the
runner core; they are parameters of the embedding.  A body that throws is
modelled as `Except.error` carrying the exception's message; a body that
returns is `Except.ok`. -/

/-- The uniform result shape of every tool. -/
structure ToolResult where
  success : Bool
  output : Option String
  error : Option String
deriving DecidableEq

/-- External collaborators of `ToolExecutor`: the tool bodies, plus whether
the Tavily-backed web tools were initialised (they exist iff a Tavily API
key was configured in the constructor). -/
structure ToolEnv where
  bashTool : String → Except String ToolResult
  readTool : String → Except String ToolResult
  writeTool : String → Except String ToolResult
  editTool : String → Except String ToolResult
  globTool : String → Except String ToolResult
  grepTool : String → Except String ToolResult
  memoryTool : String → Except String ToolResult
  webSearchConfigured : Bool
  webSearchRun : String → Except String String
  extractConfigured : Bool
  extractRun : String → Except String String

/-- The tool names handled by the `switch` in `executeTool`. -/
def registeredToolNames : List String :=
  ["Bash", "Read", "Write", "Edit", "Glob", "Grep",
   "WebSearch", "ExtractPageContent", "Memory"]

/-- `ToolExecutor.executeWebSearch`: a configuration-error result when the
web-search tool was never initialised, otherwise run the search inside its
own try/catch, prefixing a thrown message.  Lines 110–137. -/
def executeWebSearch (env : ToolEnv) (args : String) : ToolResult :=
  if !env.webSearchConfigured then
    ⟨false, none,
      some "Web search is not available. Please configure Tavily API key in Settings."⟩
  else
    match env.webSearchRun args with
    | .ok formatted => ⟨true, some formatted, none⟩
    | .error m => ⟨false, none, some ("Web search failed: " ++ m)⟩

/-- `ToolExecutor.executeExtractPage`, lines 139–165. -/
def executeExtractPage (env : ToolEnv) (args : String) : ToolResult :=
  if !env.extractConfigured then
    ⟨false, none,
      some "Page extraction is not available. Please configure Tavily API key in Settings."⟩
  else
    match env.extractRun args with
    | .ok formatted => ⟨true, some formatted, none⟩
    | .error m => ⟨false, none, some ("Page extraction failed: " ++ m)⟩

/-- The `switch` statement inside `executeTool`'s try block: dispatch on
the tool name, an unknown name returning (not throwing) a dedicated
failure.  An `Except.error` models an exception escaping the switch. -/
def dispatchTool (env : ToolEnv) (toolName : String) (args : String) :
    Except String ToolResult :=
  if toolName = "Bash" then env.bashTool args
  else if toolName = "Read" then env.readTool args
  else if toolName = "Write" then env.writeTool args
  else if toolName = "Edit" then env.editTool args
  else if toolName = "Glob" then env.globTool args
  else if toolName = "Grep" then env.grepTool args
  else if toolName = "WebSearch" then .ok (executeWebSearch env args)
  else if toolName = "ExtractPageContent" then .ok (executeExtractPage env args)
  else if toolName = "Memory" then env.memoryTool args
  else .ok ⟨false, none, some ("Unknown tool: " ++ toolName)⟩

/-- `ToolExecutor.executeTool`, lines 61–108: the switch wrapped in
try/catch, a caught exception becoming a failure result carrying its
message.  Totality of this function is the model of "never throws". -/
def executeTool (env : ToolEnv) (toolName : String) (args : String) : ToolResult :=
  match dispatchTool env toolName args with
  | .ok r => r
  | .error e => ⟨false, none, some e⟩

/-! ## Tool schema (`getTools`, tools-definitions, lines 10–19) -/

/-- A tool definition as submitted to the model; only the name is relevant
to the claims. -/
structure ToolDefinition where
  name : String
deriving DecidableEq

/-- Modelled from the spec: `ALL_TOOL_DEFINITIONS` lives in
`./tools/index.js`, which is not among the provided sources.  Per the
spec's tool-schema contract it is the list of tool definitions named Bash,
Read, Write, Edit, Glob, Grep, WebSearch, ExtractPageContent and Memory. -/
def ALL_TOOL_DEFINITIONS : List ToolDefinition :=
  [⟨"Bash"⟩, ⟨"Read"⟩, ⟨"Write"⟩, ⟨"Edit"⟩, ⟨"Glob"⟩, ⟨"Grep"⟩,
   ⟨"WebSearch"⟩, ⟨"ExtractPageContent"⟩, ⟨"Memory"⟩]

/-- The settings snapshot fields the runner core reads. -/
structure ApiSettings where
  baseUrl : String
  modelName : String
  apiKey : String
  enableMemory : Bool
deriving DecidableEq

/-- `getTools`: filter out the Memory tool unless `enableMemory` is set
(`!settings?.enableMemory` is true for absent settings too).  Lines 10–16. -/
def getTools (settings : Option ApiSettings) : List ToolDefinition :=
  if !(match settings with | some s => s.enableMemory | none => false) then
    ALL_TOOL_DEFINITIONS.filter (fun tool => tool.name ≠ "Memory")
  else ALL_TOOL_DEFINITIONS

/-- `TOOLS`, exported "for backward compatibility" (line 19). -/
def TOOLS : List ToolDefinition := ALL_TOOL_DEFINITIONS

/-- The tool schema the runner actually submits with every model request:
`tools: TOOLS` at the `client.chat.completions.create` call (line 251) —
not `getTools(settings)`. -/
def requestToolSchema : List ToolDefinition := TOOLS

/-! ## Conversation history builder (runner, lines 142–212)

`getSystemPrompt` and `getInitialPrompt` read template files from disk and
stamp the current date; they enter the model as parameters `sysPrompt` and
`fmtPrompt`. -/

/-- The persisted event log's entry kinds (other kinds are skipped). -/
inductive PersistedEvent where
  | user_prompt (prompt : String)
  | textEv (txt : String)
  | tool_result (output : String)
  | other
deriving DecidableEq

/-- Message roles of the OpenAI chat format. -/
inductive ChatRole where
  | system | user | assistant | tool
deriving DecidableEq

/-- One fully assembled tool call (`toolCalls[i]` in the runner). -/
structure AccToolCall where
  id : String
  name : String
  arguments : String
deriving DecidableEq

/-- A chat message as built by the runner.  An assistant message's
`tool_calls` is the possibly-sparse assembled array (a `none` is a hole). -/
structure ChatMessage where
  role : ChatRole
  content : String
  tool_calls : List (Option AccToolCall) := []
  tool_call_id : Option String := none
  name : Option String := none
deriving DecidableEq

/-- State threaded through the history-building loop, lines 153–201. -/
structure HistAcc where
  messages : List ChatMessage
  currentAssistant : String
  lastUserPrompt : String
deriving DecidableEq

/-- One step of the history loop (lines 163–192): a `user_prompt` flushes
any pending assistant text (resetting the buffer only when it was pushed),
records the prompt as last seen, and appends a user message; `text` and
`tool_result` accumulate into the assistant buffer; other kinds are
skipped. -/
def processEvent (acc : HistAcc) : PersistedEvent → HistAcc
  | .user_prompt p =>
    let acc :=
      if jsTrim acc.currentAssistant ≠ "" then
        { acc with
          messages := acc.messages ++ [{ role := .assistant, content := jsTrim acc.currentAssistant }],
          currentAssistant := "" }
      else acc
    { acc with
      messages := acc.messages ++ [{ role := .user, content := p }],
      lastUserPrompt := p }
  | .textEv t => { acc with currentAssistant := acc.currentAssistant ++ t }
  | .tool_result o =>
    { acc with currentAssistant := acc.currentAssistant ++ "\n[Tool Output: " ++ o ++ "]\n" }
  | .other => acc

/-- The final flush after the log (lines 194–200). -/
def finalFlush (acc : HistAcc) : HistAcc :=
  if jsTrim acc.currentAssistant ≠ "" then
    { acc with
      messages := acc.messages ++ [{ role := .assistant, content := jsTrim acc.currentAssistant }] }
  else acc

/-- Replaying the persisted log over the initial system message. -/
def replayLog (sysPrompt : String) (log : List PersistedEvent) : HistAcc :=
  finalFlush (log.foldl processEvent
    { messages := [{ role := .system, content := sysPrompt }],
      currentAssistant := "", lastUserPrompt := "" })

/-- `buildHistory`: replay the log, then append the freshly formatted new
prompt only when it differs from the last user prompt seen in the log
(lines 204–212). -/
def buildHistory (sysPrompt : String) (fmtPrompt : String → String)
    (log : List PersistedEvent) (newPrompt : String) : List ChatMessage :=
  let acc := replayLog sysPrompt log
  if newPrompt ≠ acc.lastUserPrompt then
    acc.messages ++ [{ role := .user, content := fmtPrompt newPrompt }]
  else acc.messages

/-- The text of the last `user_prompt` event of the log (`""` when the log
has none) — the spec's "last seen user prompt". -/
def lastSeenUserPrompt (log : List PersistedEvent) : String :=
  log.foldl
    (fun acc e => match e with | .user_prompt p => p | _ => acc)
    ""

/-! ## Streaming response assembler (runner, lines 256–332)

A stream chunk carries an optional delta; a delta carries optional text
content and a list of indexed tool-call fragments. -/

/-- One tool-call fragment of a stream delta.  The slot index is always
present in practice (`toolCall.index !== undefined`); id, name and
argument fragment may each be absent. -/
structure DeltaToolCall where
  index : Nat
  id : Option String := none
  name : Option String := none
  arguments : Option String := none
deriving DecidableEq

/-- A stream delta. -/
structure Delta where
  content : Option String := none
  tool_calls : List DeltaToolCall := []
deriving DecidableEq

/-- Events emitted through `onEvent` — the observable surface of the
runner.  `saveToDb` writes are not `onEvent` events and are not modelled. -/
inductive Event where
  | systemInit
  | streamStart
  | streamDelta (text : String)
  | streamStop
  | assistantText (text : String)
  | assistantToolUse (id name input : String)
  | permissionRequest (id name : String)
  | toolResultMsg (id : String) (content : Option String) (isError : Bool)
  | resultEv (isError : Bool) (text : String) (numTurns : Nat)
  | statusCompleted
  | statusError (msg : String)
deriving DecidableEq

/-- JS sparse-array read `toolCalls[i]` (`undefined` for a hole or an
out-of-range index). -/
def getSlot (l : List (Option AccToolCall)) (i : Nat) : Option AccToolCall :=
  (l.getD i none)

/-- JS sparse-array write `toolCalls[i] = v`: the length grows to `i + 1`
when `i` was out of range, leaving holes behind. -/
def setSlot (l : List (Option AccToolCall)) (i : Nat) (v : AccToolCall) :
    List (Option AccToolCall) :=
  (l ++ List.replicate (i + 1 - l.length) none).set i (some v)

/-- One tool-call fragment applied to the accumulator array (lines
303–320): a fresh slot is initialised with the fragment's id (a generated
`call_<now>_<index>` id when absent or empty), name and argument string;
an existing slot only appends a non-empty argument fragment (name and id
are never overwritten). -/
def applyDeltaToolCall (genSeed : Nat) (acc : List (Option AccToolCall))
    (tc : DeltaToolCall) : List (Option AccToolCall) :=
  match getSlot acc tc.index with
  | none =>
    setSlot acc tc.index
      { id := jsOrStr tc.id ("call_" ++ toString genSeed ++ "_" ++ toString tc.index),
        name := jsOrStr tc.name "",
        arguments := jsOrStr tc.arguments "" }
  | some existing =>
    match tc.arguments with
    | some a =>
      if a ≠ "" then
        setSlot acc tc.index { existing with arguments := existing.arguments ++ a }
      else acc
    | none => acc

/-- The abort flag, read at the runner's poll points.  Poll points are
numbered by a counter `t`; `abortTime = some n` means `abort()` was called
before the `n`-th read of the flag (the flag is sticky once set),
`abortTime = none` means it is never called. -/
def isAborted (abortTime : Option Nat) (t : Nat) : Bool :=
  match abortTime with
  | some n => decide (n ≤ t)
  | none => false

/-- Result of consuming a response stream. -/
structure StreamAcc where
  events : List Event
  t : Nat
  contentStarted : Bool
  text : String
  calls : List (Option AccToolCall)
deriving DecidableEq

/-- The text-content handling of one delta (lines 270–299): JS
`if (delta.content)` skips absent and empty content; the first non-empty
content of the iteration additionally emits `content_block_start`.
Returns the emitted events, the new `contentStarted` flag and the new
accumulated text. -/
def contentStep (cs : Bool) (txt : String) :
    Option String → List Event × Bool × String
  | some c =>
    if c ≠ "" then
      (if cs then [Event.streamDelta c]
       else [Event.streamStart, Event.streamDelta c], true, txt ++ c)
    else ([], cs, txt)
  | none => ([], cs, txt)

/-- The `for await (const chunk of stream)` loop, lines 262–322: each
chunk is preceded by an abort poll (a break on observation); a chunk
without a delta is skipped; text content is handled by `contentStep`;
tool-call fragments fold into the slot array. -/
def processChunks (abortTime : Option Nat) (genSeed : Nat) :
    List (Option Delta) → Nat → Bool → String → List (Option AccToolCall) → StreamAcc
  | [], t, cs, txt, acc => ⟨[], t, cs, txt, acc⟩
  | chunk :: rest, t, cs, txt, acc =>
    if isAborted abortTime t then ⟨[], t + 1, cs, txt, acc⟩
    else
      match chunk with
      | none => processChunks abortTime genSeed rest (t + 1) cs txt acc
      | some delta =>
        let startStep := contentStep cs txt delta.content
        let acc1 := delta.tool_calls.foldl (applyDeltaToolCall genSeed) acc
        let r := processChunks abortTime genSeed rest (t + 1) startStep.2.1 startStep.2.2 acc1
        ⟨startStep.1 ++ r.events, r.t, r.contentStarted, r.text, r.calls⟩

/-- The assembled tool-call array of a full (never-aborted) stream. -/
def assembledCalls (genSeed : Nat) (chunks : List (Option Delta)) :
    List (Option AccToolCall) :=
  (processChunks none genSeed chunks 0 false "" []).calls

/-! ## Agent loop (runner, lines 86–492) -/

/-- External collaborators of the runner loop: `JSON.parse` (an
`Except.error` is a thrown SyntaxError, stringified), the tool executor's
environment, the id-generation clock, the prompt templates. -/
structure RunnerExt where
  parseJson : String → Except String String
  tools : ToolEnv
  genSeed : Nat
  sysPrompt : String
  fmtPrompt : String → String

/-- `toolCall.function.arguments || '{}'` before `JSON.parse`. -/
def jsArgString (a : String) : String := if a = "" then "\x7b\x7d" else a

/-- The thrown `TypeError` of reading `.function` on a hole of the sparse
tool-call array. -/
def holeTypeError : String := "TypeError: Cannot read properties of undefined"

/-- The tool-result content recorded in history (line 437–439):
`result.output || 'Success'` on success, an `Error:`-prefixed message
(rendering an absent error as `undefined`) on failure. -/
def toolContentHist (r : ToolResult) : String :=
  if r.success then jsOrStr r.output "Success"
  else "Error: " ++ r.error.getD "undefined"

/-- The per-call message-sending loop, lines 389–412: parse the call's
arguments (a throw propagates, keeping earlier events) and emit one
assistant/tool_use event per call.  A hole of the sparse array throws a
TypeError.  Returns the events plus the thrown message, if any. -/
def sendToolUses (ext : RunnerExt) :
    List (Option AccToolCall) → List Event × Option String
  | [] => ([], none)
  | none :: _ => ([], some holeTypeError)
  | some tc :: rest =>
    match ext.parseJson (jsArgString tc.arguments) with
    | .error m => ([], some m)
    | .ok input =>
      let r := sendToolUses ext rest
      (Event.assistantToolUse tc.id tc.name input :: r.1, r.2)

/-- The tool-execution loop, lines 417–461: an abort poll before each
call (a break on observation), then re-parse the arguments (line 421, a
throw propagates), emit the permission request, execute the tool, record
the tool message and emit the tool-result event.  Returns events, the
tool-result messages, the poll counter, and the thrown message if any. -/
def execToolCalls (ext : RunnerExt) (abortTime : Option Nat) :
    List (Option AccToolCall) → Nat →
    List Event × List ChatMessage × Nat × Option String
  | [], t => ([], [], t, none)
  | none :: _, t =>
    if isAborted abortTime t then ([], [], t + 1, none)
    else ([], [], t + 1, some holeTypeError)
  | some tc :: rest, t =>
    if isAborted abortTime t then ([], [], t + 1, none)
    else
      match ext.parseJson (jsArgString tc.arguments) with
      | .error m => ([], [], t + 1, some m)
      | .ok args =>
        let result := executeTool ext.tools tc.name args
        let evs :=
          [Event.permissionRequest tc.id tc.name,
           Event.toolResultMsg tc.id
             (if result.success then result.output
              else some ("Error: " ++ result.error.getD "undefined"))
             (!result.success)]
        let msg : ChatMessage :=
          { role := .tool, content := toolContentHist result,
            tool_call_id := some tc.id, name := some tc.name }
        let r := execToolCalls ext abortTime rest (t + 1)
        (evs ++ r.1, msg :: r.2.1, r.2.2.1, r.2.2.2)

/-- How the `while` loop was left. -/
inductive ExitKind where
  | doneK (finalText : String)
  | abortedK
  | capK
  | thrownK (msg : String)
deriving DecidableEq

/-- The observable outcome of a run: the emitted events, how the loop
ended, the final iteration count, the final message list and the base URL
the client was constructed with. -/
structure RunResult where
  events : List Event
  exit : ExitKind
  iters : Nat
  messages : List ChatMessage
  baseURL : Option String := none
deriving DecidableEq

/-- `MAX_ITERATIONS` (line 239). -/
def MAX_ITERATIONS : Nat := 50

/-- The `while (!aborted && iterationCount < MAX_ITERATIONS)` loop, lines
241–465.  The guard reads the abort flag (one poll); each iteration pulls
the next streamed response, assembles it, and either finishes (no tool
calls: final assistant message, terminal result, completed status, break),
or records the assistant message, sends the tool-use messages, executes
the calls and loops.  A thrown message ends the recursion with `thrownK`.
`fuel` only forces termination; callers pass `MAX_ITERATIONS` so the guard
is always the deciding check. -/
def runLoop (ext : RunnerExt) (responses : List (List (Option Delta)))
    (abortTime : Option Nat) :
    Nat → Nat → Nat → List ChatMessage → RunResult
  | 0, iterationCount, t, msgs =>
    if isAborted abortTime t then ⟨[], .abortedK, iterationCount, msgs, none⟩
    else ⟨[], .capK, iterationCount, msgs, none⟩
  | fuel' + 1, iterationCount, t, msgs =>
    if isAborted abortTime t then ⟨[], .abortedK, iterationCount, msgs, none⟩
    else if iterationCount < MAX_ITERATIONS then
      let iter := iterationCount + 1
      let s := processChunks abortTime ext.genSeed
        (responses.getD iterationCount []) (t + 1) false "" []
      let stopEvs := if s.contentStarted then [Event.streamStop] else []
      if s.calls.length = 0 then
        ⟨s.events ++ stopEvs ++
          [Event.assistantText s.text,
           Event.resultEv false s.text iter,
           Event.statusCompleted],
         .doneK s.text, iter, msgs, none⟩
      else
        let msgs1 := msgs ++
          [{ role := .assistant, content := s.text, tool_calls := s.calls }]
        let send := sendToolUses ext s.calls
        match send.2 with
        | some m => ⟨s.events ++ stopEvs ++ send.1, .thrownK m, iter, msgs1, none⟩
        | none =>
          let ex := execToolCalls ext abortTime s.calls s.t
          match ex.2.2.2 with
          | some m =>
            ⟨s.events ++ stopEvs ++ send.1 ++ ex.1, .thrownK m, iter,
             msgs1 ++ ex.2.1, none⟩
          | none =>
            let rest := runLoop ext responses abortTime fuel' iter ex.2.2.1
              (msgs1 ++ ex.2.1)
            ⟨s.events ++ stopEvs ++ send.1 ++ ex.1 ++ rest.events,
             rest.exit, rest.iters, rest.messages, rest.baseURL⟩
    else ⟨[], .capK, iterationCount, msgs, none⟩

/-- The trailing-slash strip of `baseURL.replace(/\/$/, '')`. -/
def stripTrailingSlash (s : String) : String :=
  if strEndsWith s "/" then String.mk s.data.dropLast else s

/-- The base-URL adjustment of lines 122–126: keep a URL already ending in
`/v1`, otherwise strip one trailing slash and append `/v1`. -/
def normalizeBaseURL (s : String) : String :=
  if !(strEndsWith s "/v1") then stripTrailingSlash s ++ "/v1" else s

/-- The configuration-error message of line 119, stringified by the outer
catch. -/
def configErrorMsg : String :=
  "Error: API settings not configured. Please set Base URL and Model in Settings."

/-- Is the settings snapshot usable
(`!guiSettings || !guiSettings.baseUrl || !guiSettings.model` is the
failure condition; the empty string is falsy)? -/
def settingsValid (settings : Option ApiSettings) : Bool :=
  match settings with
  | none => false
  | some gs => gs.baseUrl ≠ "" && gs.modelName ≠ ""

/-- The events of the outer try/catch after the loop (lines 467–483): a
mid-loop throw is caught and stringified into one `session.status: error`
event; otherwise `iterationCount >= MAX_ITERATIONS` throws
`Max iterations reached`, likewise caught — note this fires even when the
loop left through the zero-tool-call branch on the 50th iteration. -/
def outerCatchEvents (exit : ExitKind) (iters : Nat) : List Event :=
  match exit with
  | .thrownK m => [Event.statusError m]
  | _ =>
    if MAX_ITERATIONS ≤ iters then
      [Event.statusError "Error: Max iterations reached"]
    else []

/-- The whole background task of `runClaude`, lines 113–484: validate the
settings (a failure throws, caught below as a config error), normalise the
base URL, build the history, emit the init event, run the loop, and apply
the outer try/catch. -/
def runClaudeModel (ext : RunnerExt) (settings : Option ApiSettings)
    (log : List PersistedEvent) (prompt : String)
    (responses : List (List (Option Delta))) (abortTime : Option Nat) :
    RunResult :=
  if !(settingsValid settings) then
    ⟨[Event.statusError configErrorMsg], .thrownK configErrorMsg, 0, [], none⟩
  else
    match settings with
    | none => ⟨[Event.statusError configErrorMsg], .thrownK configErrorMsg, 0, [], none⟩
    | some gs =>
      let baseURL := normalizeBaseURL gs.baseUrl
      let messages := buildHistory ext.sysPrompt ext.fmtPrompt log prompt
      let r := runLoop ext responses abortTime MAX_ITERATIONS 0 0 messages
      ⟨Event.systemInit :: r.events ++ outerCatchEvents r.exit r.iters,
       r.exit, r.iters, r.messages, some baseURL⟩

/-! ## Event classifiers and trace projections -/

/-- Is this a terminal `result` event? -/
def isResultEv : Event → Bool
  | .resultEv _ _ _ => true
  | _ => false

/-- Is this a `session.status: completed` event? -/
def isCompletedEv : Event → Bool
  | .statusCompleted => true
  | _ => false

/-- Is this a `session.status: error` event? -/
def isStatusErrorEv : Event → Bool
  | .statusError _ => true
  | _ => false

/-- The terminal `result` events of a trace. -/
def resultList (evs : List Event) : List Event := evs.filter isResultEv

/-- The `completed`-status events of a trace. -/
def completedList (evs : List Event) : List Event := evs.filter isCompletedEv

/-- The `error`-status events of a trace. -/
def statusErrorList (evs : List Event) : List Event := evs.filter isStatusErrorEv

/-- Is this a tool-result (`user` message) event? -/
def isToolResultEv : Event → Bool
  | .toolResultMsg _ _ _ => true
  | _ => false

/-- The tool-result events of a trace. -/
def toolResultEvList (evs : List Event) : List Event := evs.filter isToolResultEv

/-- Did the computation succeed (no throw)? -/
def exceptOk {ε α : Type} : Except ε α → Bool
  | .ok _ => true
  | .error _ => false

/-- A usable assembled call slot: filled, and its argument string parses. -/
def callOK (ext : RunnerExt) : Option AccToolCall → Bool
  | some tc => exceptOk (ext.parseJson (jsArgString tc.arguments))
  | none => false

/-- A streamed response on which an iteration proceeds to the next one:
it assembles at least one tool call and every call is usable. -/
def iterOK (ext : RunnerExt) (chunks : List (Option Delta)) : Bool :=
  !(assembledCalls ext.genSeed chunks).isEmpty &&
    (assembledCalls ext.genSeed chunks).all (callOK ext)

/-- The assembled text of a full (never-aborted) stream. -/
def assembledText (genSeed : Nat) (chunks : List (Option Delta)) : String :=
  (processChunks none genSeed chunks 0 false "" []).text

/-! ## Concrete instances used by the witnesses and counterexamples -/

/-- A concrete runner environment: `JSON.parse` fails exactly on the
malformed string `{`, and every tool body returns a success. -/
def ext0 : RunnerExt :=
  { parseJson := fun s => if s = "\x7b" then .error "SyntaxError: bad JSON" else .ok s,
    tools :=
      { bashTool := fun _ => .ok ⟨true, some "ok", none⟩,
        readTool := fun _ => .ok ⟨true, some "ok", none⟩,
        writeTool := fun _ => .ok ⟨true, some "ok", none⟩,
        editTool := fun _ => .ok ⟨true, some "ok", none⟩,
        globTool := fun _ => .ok ⟨true, some "ok", none⟩,
        grepTool := fun _ => .ok ⟨true, some "ok", none⟩,
        memoryTool := fun _ => .ok ⟨true, some "ok", none⟩,
        webSearchConfigured := false, webSearchRun := fun _ => .error "x",
        extractConfigured := false, extractRun := fun _ => .error "x" },
    genSeed := 7, sysPrompt := "sys", fmtPrompt := fun p => "fmt:" ++ p }

/-- A concrete valid settings snapshot with the memory feature disabled. -/
def gs0 : ApiSettings := ⟨"http://localhost:1234", "qwen", "k", false⟩

/-- A one-chunk streamed response carrying a single complete `Bash` tool
call with arguments `{}`. -/
def tcChunk : List (Option Delta) :=
  [some ⟨none, [⟨0, some "c", some "Bash", some "\x7b\x7d"⟩]⟩]

/-- A streamed response with text content `hello` and no tool calls. -/
def helloResponses : List (List (Option Delta)) := [[some ⟨some "hello", []⟩]]

/-- A run whose first response carries a tool call with the malformed
argument string `{`; a second, plain response follows. -/
def badResponses : List (List (Option Delta)) :=
  [[some ⟨none, [⟨0, some "c1", some "Read", some "\x7b"⟩]⟩], []]

/-- 49 tool-call responses followed by a plain response: the
zero-tool-call exit lands exactly on iteration 50. -/
def capDoneResponses : List (List (Option Delta)) :=
  List.replicate 49 tcChunk ++ [[]]

/-- A tool-call response on every one of the 50 iterations. -/
def cap50Responses : List (List (Option Delta)) := List.replicate 50 tcChunk

/-- One response carrying two complete `Bash` tool calls. -/
def twoCallResponses : List (List (Option Delta)) :=
  [[some ⟨none, [⟨0, some "a", some "Bash", some "\x7b\x7d"⟩,
                 ⟨1, some "b", some "Bash", some "\x7b\x7d"⟩]⟩]]

/-! ## Classifiers used to slice event traces by emitting phase -/

/-- Events the stream-consumption phase can emit. -/
def isStreamPieceEv : Event → Bool
  | .streamStart => true
  | .streamDelta _ => true
  | _ => false

/-- Events the tool-use-sending phase can emit. -/
def isToolUseEv : Event → Bool
  | .assistantToolUse _ _ _ => true
  | _ => false

/-- Events the tool-execution phase can emit. -/
def isExecPhaseEv : Event → Bool
  | .permissionRequest _ _ => true
  | .toolResultMsg _ _ _ => true
  | _ => false

/-- Events emitted strictly inside an iteration, before any terminal
event: stream pieces, the stream stop, tool-use messages, permission
requests and tool-result messages. -/
def isMidIterEv : Event → Bool
  | .streamStart => true
  | .streamDelta _ => true
  | .streamStop => true
  | .assistantToolUse _ _ _ => true
  | .permissionRequest _ _ => true
  | .toolResultMsg _ _ _ => true
  | _ => false

/-- The terminal `result` events a loop exit of the given kind produces. -/
def expectedResultList : ExitKind → Nat → List Event
  | .doneK txt, iters => [Event.resultEv false txt iters]
  | _, _ => []

/-- The `completed`-status events a loop exit of the given kind produces. -/
def expectedCompletedList : ExitKind → List Event
  | .doneK _ => [Event.statusCompleted]
  | _ => []

/-- The trace invariant of the agent loop, relative to the iteration
counter it was entered with: terminal `result` events appear exactly when
the loop exits through the zero-tool-call branch (with `is_error:false`,
the assembled text and the final turn count), likewise the `completed`
status (preceded by the final assistant-message event); the loop itself
emits no `error` status; and the iteration counter never exceeds the
cap. -/
def TraceOK (iterC : Nat) (r : RunResult) : Prop :=
  resultList r.events = expectedResultList r.exit r.iters ∧
  completedList r.events = expectedCompletedList r.exit ∧
  statusErrorList r.events = [] ∧
  iterC ≤ r.iters ∧
  (iterC ≤ MAX_ITERATIONS → r.iters ≤ MAX_ITERATIONS) ∧
  (∀ txt, r.exit = .doneK txt → Event.assistantText txt ∈ r.events)

/-! # Theorems -/

/-! ## Generic helper lemmas -/

/-- Appending a string ends with the appended suffix. -/
theorem strEndsWith_append_self (a b : String) : strEndsWith (a ++ b) b = true := by
  simp [strEndsWith, String.data_append, List.isSuffixOf]

/-- A filter by `p` is empty on a list whose members all satisfy a
classifier `q` that excludes `p`. -/
theorem filter_nil_of_class {p q : Event → Bool}
    (hpq : ∀ e, q e = true → p e = false) (l : List Event)
    (hl : ∀ e ∈ l, q e = true) : l.filter p = [] := by
  refine List.filter_eq_nil_iff.2 fun e he => ?_
  simp [hpq e (hl e he)]

/-! ## C1: path confinement -/

/-- C1 (counterexample): the claim's reading fails on the code.  For the
working directory `/home/user/project` and input `..hidden`, the resolved
path stays inside the working directory and its relative form `..hidden`
does not begin with a parent-directory segment, yet `isPathSafe` rejects
it because the relative form begins with the two-character string `..`. -/
theorem isPathSafe_segment_counterexample :
    isPathSafe "/home/user/project" "..hidden" = false ∧
    pathSafeSpecSegment "/home/user/project" "..hidden" = true ∧
    resolvePosix "/home/user/project" "..hidden" = "/home/user/project/..hidden" ∧
    relativePosix "/home/user/project" "/home/user/project/..hidden" = "..hidden" := by
  refine ⟨by decide, by decide, by decide, by decide⟩

/-- C1 (amended): `isPathSafe` returns true iff the relative form of the
path resolved against the working directory does not begin with the
two-character string `..` and is not absolute; in particular an upward
escape is rejected, a path inside the working directory is accepted, and
an absolute path outside it is rejected. -/
theorem isPathSafe_marker_spec :
    (∀ cwd p, isPathSafe cwd p = pathSafeSpecMarker cwd p) ∧
    isPathSafe "/home/user/project" "../../etc/passwd" = false ∧
    isPathSafe "/home/user/project" "sub/file.txt" = true ∧
    isPathSafe "/home/user/project" "/etc/passwd" = false := by
  refine ⟨fun cwd p => rfl, by decide, by decide, by decide⟩

/-! ## C2: executeTool never throws -/

/-- C2: `executeTool` is total (the model of "never throws"); an
unregistered tool name yields a `success := false` result naming the
unknown tool, and an exception escaping the dispatch switch is caught and
converted to a `success := false` result carrying its message. -/
theorem executeTool_error_contract (env : ToolEnv) (args : String) :
    (∀ toolName, toolName ∉ registeredToolNames →
      executeTool env toolName args =
        ⟨false, none, some ("Unknown tool: " ++ toolName)⟩) ∧
    (∀ toolName m, dispatchTool env toolName args = .error m →
      executeTool env toolName args = ⟨false, none, some m⟩) := by
  constructor
  · intro toolName hn
    simp only [registeredToolNames, List.mem_cons, List.mem_singleton, not_or] at hn
    obtain ⟨h1, h2, h3, h4, h5, h6, h7, h8, h9, -⟩ := hn
    simp [executeTool, dispatchTool, h1, h2, h3, h4, h5, h6, h7, h8, h9]
  · intro toolName m hm
    simp [executeTool, hm]

/-- C2 (witness): a concrete unknown tool name and a concrete throwing
tool body, run through `executeTool`. -/
theorem executeTool_error_contract_witness :
    ("Teleport" ∉ registeredToolNames ∧
      executeTool ext0.tools "Teleport" "" =
        ⟨false, none, some ("Unknown tool: " ++ "Teleport")⟩) ∧
    (dispatchTool
        { ext0.tools with bashTool := fun _ => .error "boom" } "Bash" "" =
        .error "boom" ∧
      executeTool
        { ext0.tools with bashTool := fun _ => .error "boom" } "Bash" "" =
        ⟨false, none, some "boom"⟩) := by
  refine ⟨⟨by decide, (executeTool_error_contract ext0.tools "").1 "Teleport" (by decide)⟩,
    ⟨rfl, (executeTool_error_contract _ "").2 "Bash" "boom" rfl⟩⟩

/-! ## C4: streaming tool-call reassembly -/

/-- Writing a slot and reading it back. -/
theorem getSlot_setSlot (l : List (Option AccToolCall)) (i : Nat) (v : AccToolCall) :
    getSlot (setSlot l i v) i = some v := by
  have h : i < (l ++ List.replicate (i + 1 - l.length) (none : Option AccToolCall)).length := by
    simp only [List.length_append, List.length_replicate]
    omega
  simp [getSlot, setSlot, List.getD, List.getElem?_set_self', List.getElem?_eq_getElem h]

/-- C4: the fragment assembler.  The spec's two-fragment example yields
exactly one completed call with the first-seen id, the first-seen name and
the in-order concatenation of the argument fragments; in general, a
fragment landing on an existing slot never overwrites its id or name and
only appends its argument fragment, while a fragment landing on a fresh
slot initialises it with its id (generated when absent), name and
argument string. -/
theorem stream_assembler_spec :
    (∀ g, assembledCalls g
        [some ⟨none, [⟨0, some "c1", some "Read", some "\x7b\"pa"⟩]⟩,
         some ⟨none, [⟨0, none, none, some "th\":\"x\"\x7d"⟩]⟩] =
      [some ⟨"c1", "Read", "\x7b\"path\":\"x\"\x7d"⟩]) ∧
    (∀ g acc tc ex, getSlot acc tc.index = some ex →
      getSlot (applyDeltaToolCall g acc tc) tc.index =
        some ⟨ex.id, ex.name, ex.arguments ++ tc.arguments.getD ""⟩) ∧
    (∀ g acc tc, getSlot acc tc.index = none →
      getSlot (applyDeltaToolCall g acc tc) tc.index =
        some ⟨jsOrStr tc.id ("call_" ++ toString g ++ "_" ++ toString tc.index),
          jsOrStr tc.name "", jsOrStr tc.arguments ""⟩) := by
  refine ⟨fun g => rfl, ?_, ?_⟩
  · intro g acc tc ex h
    cases harg : tc.arguments with
    | none => simp [applyDeltaToolCall, h, harg, String.append_empty]
    | some a =>
      by_cases ha : a = ""
      · simp [applyDeltaToolCall, h, harg, ha, String.append_empty]
      · simp [applyDeltaToolCall, h, harg, ha, getSlot_setSlot]
  · intro g acc tc h
    simp [applyDeltaToolCall, h, getSlot_setSlot]

/-- C4 (witness): the preservation and initialisation clauses applied at
concrete slots. -/
theorem stream_assembler_spec_witness :
    (getSlot [some ⟨"a", "B", "x"⟩] 0 = some ⟨"a", "B", "x"⟩ ∧
      getSlot (applyDeltaToolCall 7 [some ⟨"a", "B", "x"⟩] ⟨0, none, none, some "y"⟩) 0 =
        some ⟨"a", "B", "xy"⟩) ∧
    (getSlot ([] : List (Option AccToolCall)) 1 = none ∧
      getSlot (applyDeltaToolCall 7 [] ⟨1, some "id1", some "Read", none⟩) 1 =
        some ⟨"id1", "Read", ""⟩) := by
  refine ⟨⟨rfl, ?_⟩, ⟨rfl, ?_⟩⟩
  · exact (stream_assembler_spec.2.1 7 [some ⟨"a", "B", "x"⟩]
      ⟨0, none, none, some "y"⟩ ⟨"a", "B", "x"⟩ (by decide)).trans (by decide)
  · exact (stream_assembler_spec.2.2 7 []
      ⟨1, some "id1", some "Read", none⟩ (by decide)).trans (by decide)

/-! ## C5: history building is idempotent under prompt resubmission -/

/-- One history step only changes the last-seen prompt on a `user_prompt`
event. -/
theorem processEvent_lastPrompt (acc : HistAcc) (e : PersistedEvent) :
    (processEvent acc e).lastUserPrompt =
      (match e with | .user_prompt p => p | _ => acc.lastUserPrompt) := by
  cases e <;> rfl

/-- The fold of the history loop tracks exactly the spec's "last seen user
prompt". -/
theorem foldl_lastPrompt (log : List PersistedEvent) (acc : HistAcc) :
    (log.foldl processEvent acc).lastUserPrompt =
      log.foldl (fun a e => match e with | .user_prompt p => p | _ => a)
        acc.lastUserPrompt := by
  induction log generalizing acc with
  | nil => rfl
  | cons e rest ih =>
    simp only [List.foldl_cons, ih, processEvent_lastPrompt]

/-- Replaying the log tracks the last seen user prompt. -/
theorem replayLog_lastPrompt (sysPrompt : String) (log : List PersistedEvent) :
    (replayLog sysPrompt log).lastUserPrompt = lastSeenUserPrompt log := by
  unfold replayLog finalFlush lastSeenUserPrompt
  split <;> simp [foldl_lastPrompt]

/-- C5: resubmitting the last prompt of the log appends nothing — the
built history is exactly the replayed log; a prompt differing from the
last seen one is appended, freshly formatted, after the replayed log. -/
theorem buildHistory_dedup (sysPrompt : String) (fmtPrompt : String → String)
    (log : List PersistedEvent) (P : String) :
    (P = lastSeenUserPrompt log →
      buildHistory sysPrompt fmtPrompt log P = (replayLog sysPrompt log).messages) ∧
    (P ≠ lastSeenUserPrompt log →
      buildHistory sysPrompt fmtPrompt log P =
        (replayLog sysPrompt log).messages ++
          [{ role := .user, content := fmtPrompt P }]) := by
  constructor <;> intro h <;>
    simp [buildHistory, replayLog_lastPrompt, h]

/-- C5 (witness): the spec's scenario `log = [user_prompt "hi"]`.
Resubmitting `"hi"` yields just `[system, user "hi"]`; submitting a new
prompt `"bye"` appends its formatted user message. -/
theorem buildHistory_dedup_witness :
    ("hi" = lastSeenUserPrompt [PersistedEvent.user_prompt "hi"] ∧
      buildHistory "sys" (fun p => "fmt:" ++ p) [PersistedEvent.user_prompt "hi"] "hi" =
        [{ role := .system, content := "sys" }, { role := .user, content := "hi" }]) ∧
    ("bye" ≠ lastSeenUserPrompt [PersistedEvent.user_prompt "hi"] ∧
      buildHistory "sys" (fun p => "fmt:" ++ p) [PersistedEvent.user_prompt "hi"] "bye" =
        [{ role := .system, content := "sys" }, { role := .user, content := "hi" },
         { role := .user, content := "fmt:bye" }]) := by
  refine ⟨⟨by decide, ?_⟩, ⟨by decide, ?_⟩⟩
  · exact ((buildHistory_dedup "sys" (fun p => "fmt:" ++ p)
      [PersistedEvent.user_prompt "hi"] "hi").1 (by decide)).trans (by decide)
  · exact ((buildHistory_dedup "sys" (fun p => "fmt:" ++ p)
      [PersistedEvent.user_prompt "hi"] "bye").2 (by decide)).trans (by decide)

/-! ## Loop phase lemmas -/

/-- A list of mid-iteration events contains no terminal `result`, no
`completed` status and no `error` status. -/
theorem midIter_filters (l : List Event) (hl : ∀ e ∈ l, isMidIterEv e = true) :
    resultList l = [] ∧ completedList l = [] ∧ statusErrorList l = [] := by
  refine ⟨filter_nil_of_class ?_ l hl, filter_nil_of_class ?_ l hl,
    filter_nil_of_class ?_ l hl⟩ <;>
  · intro e he
    cases e <;> simp_all [isMidIterEv, isResultEv, isCompletedEv, isStatusErrorEv]

/-- Every event `contentStep` emits is a mid-iteration event. -/
theorem contentStep_class (cs : Bool) (txt : String) (oc : Option String)
    (e : Event) (he : e ∈ (contentStep cs txt oc).1) : isMidIterEv e = true := by
  cases oc with
  | none => simp [contentStep] at he
  | some c =>
    by_cases hce : c = ""
    · simp [contentStep, hce] at he
    · simp only [contentStep] at he
      rw [if_pos hce] at he
      cases cs with
      | false =>
        simp at he
        rcases he with he | he <;> simp [he, isMidIterEv]
      | true =>
        simp at he
        simp [he, isMidIterEv]

/-- Every event the stream-consumption phase emits is a mid-iteration
event. -/
theorem processChunks_class (abortTime : Option Nat) (g : Nat) :
    ∀ (chunks : List (Option Delta)) (t : Nat) (cs : Bool) (txt : String)
      (acc : List (Option AccToolCall)) (e : Event),
      e ∈ (processChunks abortTime g chunks t cs txt acc).events →
      isMidIterEv e = true := by
  intro chunks
  induction chunks with
  | nil =>
    intro t cs txt acc e he
    simp [processChunks] at he
  | cons chunk rest ih =>
    intro t cs txt acc e he
    simp only [processChunks] at he
    split at he
    · simp at he
    · cases chunk with
      | none => exact ih _ _ _ _ e he
      | some delta =>
        rcases List.mem_append.1 he with h1 | h2
        · exact contentStep_class _ _ _ e h1
        · exact ih _ _ _ _ e h2

/-- Every event the tool-use-sending phase emits is a mid-iteration
event. -/
theorem sendToolUses_class (ext : RunnerExt) :
    ∀ (calls : List (Option AccToolCall)) (e : Event),
      e ∈ (sendToolUses ext calls).1 → isMidIterEv e = true := by
  intro calls
  induction calls with
  | nil => intro e he; simp [sendToolUses] at he
  | cons otc rest ih =>
    intro e he
    cases otc with
    | none => simp [sendToolUses] at he
    | some tc =>
      simp only [sendToolUses] at he
      cases hp : ext.parseJson (jsArgString tc.arguments) with
      | error m => rw [hp] at he; simp at he
      | ok input =>
        rw [hp] at he
        simp only at he
        rcases List.mem_cons.1 he with h1 | h2
        · simp [h1, isMidIterEv]
        · exact ih e h2

/-- Every event the tool-execution phase emits is a mid-iteration event. -/
theorem execToolCalls_class (ext : RunnerExt) (abortTime : Option Nat) :
    ∀ (calls : List (Option AccToolCall)) (t : Nat) (e : Event),
      e ∈ (execToolCalls ext abortTime calls t).1 → isMidIterEv e = true := by
  intro calls
  induction calls with
  | nil => intro t e he; simp [execToolCalls] at he
  | cons otc rest ih =>
    intro t e he
    cases otc with
    | none =>
      simp only [execToolCalls] at he
      split at he <;> simp at he
    | some tc =>
      simp only [execToolCalls] at he
      split at he
      · simp at he
      · cases hp : ext.parseJson (jsArgString tc.arguments) with
        | error m => rw [hp] at he; simp at he
        | ok args =>
          rw [hp] at he
          simp only at he
          rcases List.mem_append.1 he with h1 | h2
          · simp at h1
            rcases h1 with h1 | h1 <;> simp [h1, isMidIterEv]
          · exact ih _ e h2

/-- Sending tool-use messages does not throw when every call is usable. -/
theorem sendToolUses_ok (ext : RunnerExt) :
    ∀ (calls : List (Option AccToolCall)),
      (∀ c ∈ calls, callOK ext c = true) → (sendToolUses ext calls).2 = none := by
  intro calls
  induction calls with
  | nil => intro _; rfl
  | cons otc rest ih =>
    intro h
    cases otc with
    | none => simpa [callOK] using h none (by simp)
    | some tc =>
      have htc := h (some tc) (by simp)
      simp only [callOK, exceptOk] at htc
      cases hp : ext.parseJson (jsArgString tc.arguments) with
      | error m => rw [hp] at htc; simp at htc
      | ok input =>
        simp only [sendToolUses, hp]
        exact ih fun c hc => h c (List.mem_cons_of_mem _ hc)

/-- Executing the calls does not throw when no abort is scheduled and
every call is usable. -/
theorem execToolCalls_ok (ext : RunnerExt) :
    ∀ (calls : List (Option AccToolCall)) (t : Nat),
      (∀ c ∈ calls, callOK ext c = true) →
      (execToolCalls ext none calls t).2.2.2 = none := by
  intro calls
  induction calls with
  | nil => intro t _; rfl
  | cons otc rest ih =>
    intro t h
    cases otc with
    | none => simpa [callOK] using h none (by simp)
    | some tc =>
      have htc := h (some tc) (by simp)
      simp only [callOK, exceptOk] at htc
      cases hp : ext.parseJson (jsArgString tc.arguments) with
      | error m => rw [hp] at htc; simp at htc
      | ok args =>
        simp only [execToolCalls, isAborted, hp]
        exact ih (t + 1) fun c hc => h c (List.mem_cons_of_mem _ hc)

/-- With no abort scheduled, the stream consumption's outcome does not
depend on the poll counter: it equals the run from counter `0`, the final
counter being advanced by one poll per chunk. -/
theorem processChunks_none_shift (g : Nat) :
    ∀ (chunks : List (Option Delta)) (t : Nat) (cs : Bool) (txt : String)
      (acc : List (Option AccToolCall)),
      processChunks none g chunks t cs txt acc =
        { processChunks none g chunks 0 cs txt acc with t := t + chunks.length } := by
  intro chunks
  induction chunks with
  | nil => intro t cs txt acc; simp [processChunks]
  | cons chunk rest ih =>
    intro t cs txt acc
    cases chunk with
    | none =>
      simp only [processChunks, isAborted, Bool.false_eq_true, if_false]
      rw [ih (t + 1), ih (0 + 1)]
      simp only [List.length_cons]
      congr 1
      omega
    | some delta =>
      simp only [processChunks, isAborted, Bool.false_eq_true, if_false]
      rw [ih (t + 1), ih (0 + 1)]
      simp only [List.length_cons]
      congr 1
      omega

/-- The calls assembled inside the loop coincide with `assembledCalls`. -/
theorem processChunks_calls_eq (g : Nat) (chunks : List (Option Delta)) (t : Nat) :
    (processChunks none g chunks t false "" []).calls = assembledCalls g chunks := by
  rw [processChunks_none_shift]; rfl

/-- The text assembled inside the loop coincides with `assembledText`. -/
theorem processChunks_text_eq (g : Nat) (chunks : List (Option Delta)) (t : Nat) :
    (processChunks none g chunks t false "" []).text = assembledText g chunks := by
  rw [processChunks_none_shift]; rfl

/-! ## The master trace lemma of the agent loop -/

/-- Every run of the `while` loop satisfies the trace invariant: a
terminal `result` event and a `completed` status are emitted exactly on a
zero-tool-call exit (carrying the assembled text and final turn count),
no `error` status is emitted by the loop body, and the iteration counter
respects the cap. -/
theorem runLoop_trace (ext : RunnerExt) (responses : List (List (Option Delta)))
    (abortTime : Option Nat) :
    ∀ (fuel iterC t : Nat) (msgs : List ChatMessage),
      TraceOK iterC (runLoop ext responses abortTime fuel iterC t msgs) := by
  intro fuel
  induction fuel with
  | zero =>
    intro iterC t msgs
    simp only [runLoop]
    split <;>
      simp [TraceOK, resultList, completedList, statusErrorList,
        expectedResultList, expectedCompletedList]
  | succ fuel' ih =>
    intro iterC t msgs
    simp only [runLoop]
    split
    · simp [TraceOK, resultList, completedList, statusErrorList,
        expectedResultList, expectedCompletedList]
    · split
      case isFalse =>
        simp [TraceOK, resultList, completedList, statusErrorList,
          expectedResultList, expectedCompletedList]
      case isTrue hlt =>
        set s := processChunks abortTime ext.genSeed
          (responses.getD iterC []) (t + 1) false "" [] with hs
        have hsev : List.filter isResultEv s.events = [] ∧
            List.filter isCompletedEv s.events = [] ∧
            List.filter isStatusErrorEv s.events = [] := by
          refine midIter_filters _ ?_
          rw [hs]
          exact fun e he => processChunks_class _ _ _ _ _ _ _ e he
        have hstop : List.filter isResultEv
              (if s.contentStarted then [Event.streamStop] else []) = [] ∧
            List.filter isCompletedEv
              (if s.contentStarted then [Event.streamStop] else []) = [] ∧
            List.filter isStatusErrorEv
              (if s.contentStarted then [Event.streamStop] else []) = [] := by
          refine midIter_filters _ ?_
          split <;> simp [isMidIterEv]
        split
        · -- zero tool calls: the DONE branch
          refine ⟨?_, ?_, ?_, ?_, ?_, ?_⟩
          · simp only [resultList, List.filter_append, hsev.1, hstop.1]
            rfl
          · simp only [completedList, List.filter_append, hsev.2.1, hstop.2.1]
            rfl
          · simp only [statusErrorList, List.filter_append, hsev.2.2, hstop.2.2]
            rfl
          · simp
          · intro h
            simp only [MAX_ITERATIONS] at hlt ⊢
            omega
          · intro txt htxt
            cases htxt
            simp
        · -- at least one tool call
          have u : List.filter isResultEv (sendToolUses ext s.calls).1 = [] ∧
              List.filter isCompletedEv (sendToolUses ext s.calls).1 = [] ∧
              List.filter isStatusErrorEv (sendToolUses ext s.calls).1 = [] :=
            midIter_filters _ (fun e he => sendToolUses_class ext s.calls e he)
          split
          case h_1 m hm =>
            refine ⟨?_, ?_, ?_, ?_, ?_, ?_⟩
            · simp only [resultList, List.filter_append, hsev.1, hstop.1, u.1]
              rfl
            · simp only [completedList, List.filter_append, hsev.2.1,
                hstop.2.1, u.2.1]
              rfl
            · simp only [statusErrorList, List.filter_append, hsev.2.2,
                hstop.2.2, u.2.2]
              rfl
            · simp
            · intro h
              simp only [MAX_ITERATIONS] at hlt ⊢
              omega
            · intro txt htxt
              cases htxt
          case h_2 hm =>
            have x : List.filter isResultEv
                  (execToolCalls ext abortTime s.calls s.t).1 = [] ∧
                List.filter isCompletedEv
                  (execToolCalls ext abortTime s.calls s.t).1 = [] ∧
                List.filter isStatusErrorEv
                  (execToolCalls ext abortTime s.calls s.t).1 = [] :=
              midIter_filters _
                (fun e he => execToolCalls_class ext abortTime s.calls s.t e he)
            split
            case h_1 m hm2 =>
              refine ⟨?_, ?_, ?_, ?_, ?_, ?_⟩
              · simp only [resultList, List.filter_append, hsev.1, hstop.1,
                  u.1, x.1]
                rfl
              · simp only [completedList, List.filter_append, hsev.2.1,
                  hstop.2.1, u.2.1, x.2.1]
                rfl
              · simp only [statusErrorList, List.filter_append, hsev.2.2,
                  hstop.2.2, u.2.2, x.2.2]
                rfl
              · simp
              · intro h
                simp only [MAX_ITERATIONS] at hlt ⊢
                omega
              · intro txt htxt
                cases htxt
            case h_2 hm2 =>
              obtain ⟨i1, i2, i3, i4, i5, i6⟩ :=
                ih (iterC + 1) (execToolCalls ext abortTime s.calls s.t).2.2.1
                  ((msgs ++ [{ role := .assistant, content := s.text, tool_calls := s.calls }]) ++ (execToolCalls ext abortTime s.calls s.t).2.1)
              refine ⟨?_, ?_, ?_, ?_, ?_, ?_⟩
              · simp only [resultList, List.filter_append, hsev.1, hstop.1,
                  u.1, x.1, List.nil_append]
                exact i1
              · simp only [completedList, List.filter_append, hsev.2.1,
                  hstop.2.1, u.2.1, x.2.1, List.nil_append]
                exact i2
              · simp only [statusErrorList, List.filter_append, hsev.2.2,
                  hstop.2.2, u.2.2, x.2.2, List.nil_append]
                exact i3
              · simp only []
                omega
              · intro h
                apply i5
                simp only [MAX_ITERATIONS] at hlt ⊢
                omega
              · intro txt htxt
                have hmem := i6 txt htxt
                simp only [List.mem_append]
                exact Or.inr hmem

/-- With no abort scheduled, a run whose every response (up to the cap)
assembles at least one usable tool call leaves the `while` loop through
the guard with the iteration counter at the cap. -/
theorem runLoop_cap (ext : RunnerExt) (responses : List (List (Option Delta))) :
    ∀ (fuel iterC t : Nat) (msgs : List ChatMessage),
      iterC + fuel = MAX_ITERATIONS →
      (∀ k, iterC ≤ k → k < MAX_ITERATIONS → iterOK ext (responses.getD k []) = true) →
      (runLoop ext responses none fuel iterC t msgs).exit = .capK ∧
      (runLoop ext responses none fuel iterC t msgs).iters = MAX_ITERATIONS := by
  intro fuel
  induction fuel with
  | zero =>
    intro iterC t msgs hsum hok
    simp only [runLoop, isAborted]
    rw [if_neg (by simp)]
    constructor
    · rfl
    · simp only [MAX_ITERATIONS] at hsum ⊢
      omega
  | succ fuel' ih =>
    intro iterC t msgs hsum hok
    have hlt : iterC < MAX_ITERATIONS := by
      simp only [MAX_ITERATIONS] at hsum ⊢
      omega
    have h1 := hok iterC le_rfl hlt
    simp only [iterOK, Bool.and_eq_true, List.all_eq_true] at h1
    simp only [runLoop]
    rw [if_neg (by simp [isAborted]), if_pos hlt]
    rw [processChunks_calls_eq]
    have hlen : ¬(assembledCalls ext.genSeed (responses.getD iterC [])).length = 0 := by
      cases hc : assembledCalls ext.genSeed (responses.getD iterC []) with
      | nil => rw [hc] at h1; simp [List.isEmpty] at h1
      | cons a l => simp [hc]
    rw [if_neg hlen]
    rw [sendToolUses_ok ext _ h1.2]
    rw [execToolCalls_ok ext _ _ h1.2]
    simp only []
    exact ih (iterC + 1) _ _ (by omega)
      (fun k hk1 hk2 => hok k (by omega) hk2)

/-- With no abort scheduled, a run whose responses assemble usable tool
calls up to index `doneIdx` (strictly below the cap) and an empty call
list at `doneIdx` exits through the zero-tool-call branch at iteration
`doneIdx + 1` carrying the text assembled there. -/
theorem runLoop_done (ext : RunnerExt) (responses : List (List (Option Delta))) :
    ∀ (fuel iterC t : Nat) (msgs : List ChatMessage) (doneIdx : Nat),
      iterC + fuel = MAX_ITERATIONS →
      iterC ≤ doneIdx → doneIdx < MAX_ITERATIONS →
      (∀ k, iterC ≤ k → k < doneIdx → iterOK ext (responses.getD k []) = true) →
      assembledCalls ext.genSeed (responses.getD doneIdx []) = [] →
      (runLoop ext responses none fuel iterC t msgs).exit =
        .doneK (assembledText ext.genSeed (responses.getD doneIdx [])) ∧
      (runLoop ext responses none fuel iterC t msgs).iters = doneIdx + 1 := by
  intro fuel
  induction fuel with
  | zero =>
    intro iterC t msgs doneIdx hsum hle hdl hok hdone
    exfalso
    omega
  | succ fuel' ih =>
    intro iterC t msgs doneIdx hsum hle hdl hok hdone
    have hlt : iterC < MAX_ITERATIONS := by omega
    simp only [runLoop]
    rw [if_neg (by simp [isAborted]), if_pos hlt]
    rw [processChunks_calls_eq, processChunks_text_eq]
    rcases Nat.eq_or_lt_of_le hle with heq | hltd
    · -- this is the terminating iteration
      subst heq
      rw [if_pos (by rw [hdone]; rfl)]
      exact ⟨rfl, rfl⟩
    · -- a tool-call iteration before the terminating one
      have h1 := hok iterC le_rfl hltd
      simp only [iterOK, Bool.and_eq_true, List.all_eq_true] at h1
      have hlen : ¬(assembledCalls ext.genSeed (responses.getD iterC [])).length = 0 := by
        cases hc : assembledCalls ext.genSeed (responses.getD iterC []) with
        | nil => rw [hc] at h1; simp [List.isEmpty] at h1
        | cons a l => simp [hc]
      rw [if_neg hlen]
      rw [sendToolUses_ok ext _ h1.2]
      rw [execToolCalls_ok ext _ _ h1.2]
      simp only []
      exact ih (iterC + 1) _ _ doneIdx (by omega) hltd hdl
        (fun k hk1 hk2 => hok k (by omega) hk2) hdone

/-- The outer catch emits only `error`-status events: no terminal result
and no completed status. -/
theorem outerCatch_filters (exit : ExitKind) (iters : Nat) :
    resultList (outerCatchEvents exit iters) = [] ∧
    completedList (outerCatchEvents exit iters) = [] := by
  cases exit <;> simp only [outerCatchEvents] <;>
    first
      | exact ⟨rfl, rfl⟩
      | (split <;> exact ⟨rfl, rfl⟩)

/-- For valid settings the run is the init event, the loop's trace and the
outer catch's tail, with the loop's exit, its iteration count and the
normalised base URL. -/
theorem runClaudeModel_valid (ext : RunnerExt) (gs : ApiSettings)
    (log : List PersistedEvent) (prompt : String)
    (responses : List (List (Option Delta))) (abortTime : Option Nat)
    (hset : settingsValid (some gs) = true) :
    runClaudeModel ext (some gs) log prompt responses abortTime =
      ⟨Event.systemInit ::
          (runLoop ext responses abortTime MAX_ITERATIONS 0 0
            (buildHistory ext.sysPrompt ext.fmtPrompt log prompt)).events ++
          outerCatchEvents
            (runLoop ext responses abortTime MAX_ITERATIONS 0 0
              (buildHistory ext.sysPrompt ext.fmtPrompt log prompt)).exit
            (runLoop ext responses abortTime MAX_ITERATIONS 0 0
              (buildHistory ext.sysPrompt ext.fmtPrompt log prompt)).iters,
        (runLoop ext responses abortTime MAX_ITERATIONS 0 0
          (buildHistory ext.sysPrompt ext.fmtPrompt log prompt)).exit,
        (runLoop ext responses abortTime MAX_ITERATIONS 0 0
          (buildHistory ext.sysPrompt ext.fmtPrompt log prompt)).iters,
        (runLoop ext responses abortTime MAX_ITERATIONS 0 0
          (buildHistory ext.sysPrompt ext.fmtPrompt log prompt)).messages,
        some (normalizeBaseURL gs.baseUrl)⟩ := by
  simp [runClaudeModel, hset]

/-- For valid settings the run's exit is the loop's exit. -/
theorem runClaudeModel_exit (ext : RunnerExt) (gs : ApiSettings)
    (log : List PersistedEvent) (prompt : String)
    (responses : List (List (Option Delta))) (abortTime : Option Nat)
    (hset : settingsValid (some gs) = true) :
    (runClaudeModel ext (some gs) log prompt responses abortTime).exit =
      (runLoop ext responses abortTime MAX_ITERATIONS 0 0
        (buildHistory ext.sysPrompt ext.fmtPrompt log prompt)).exit := by
  rw [runClaudeModel_valid ext gs log prompt responses abortTime hset]

/-- For valid settings the run's iteration count is the loop's. -/
theorem runClaudeModel_iters (ext : RunnerExt) (gs : ApiSettings)
    (log : List PersistedEvent) (prompt : String)
    (responses : List (List (Option Delta))) (abortTime : Option Nat)
    (hset : settingsValid (some gs) = true) :
    (runClaudeModel ext (some gs) log prompt responses abortTime).iters =
      (runLoop ext responses abortTime MAX_ITERATIONS 0 0
        (buildHistory ext.sysPrompt ext.fmtPrompt log prompt)).iters := by
  rw [runClaudeModel_valid ext gs log prompt responses abortTime hset]

/-- Reading inside the left part of an appended list. -/
theorem getD_append_left {α : Type} (d : α) (l₁ l₂ : List α) (k : Nat)
    (h : k < l₁.length) : (l₁ ++ l₂).getD k d = l₁.getD k d := by
  simp [List.getD, List.getElem?_append_left h]

/-- Reading a replicated list below its length. -/
theorem getD_replicate_lt {α : Type} (d x : α) (n k : Nat) (h : k < n) :
    (List.replicate n x).getD k d = x := by
  simp [List.getD, List.getElem?_replicate, h]

/-- Reading just past a list of known length. -/
theorem getD_append_at_length {α : Type} (d x : α) (l₁ : List α) (k : Nat)
    (h : l₁.length = k) : (l₁ ++ [x]).getD k d = x := by
  simp [List.getD, List.getElem?_append_right (le_of_eq h), h]

/-- A full run's trace, for valid settings: terminal result and completed
status exactly on a zero-tool-call exit; the `error`-status events are
exactly those of the outer catch. -/
theorem runClaudeModel_trace (ext : RunnerExt) (gs : ApiSettings)
    (log : List PersistedEvent) (prompt : String)
    (responses : List (List (Option Delta))) (abortTime : Option Nat)
    (hset : settingsValid (some gs) = true) :
    resultList (runClaudeModel ext (some gs) log prompt responses abortTime).events =
      expectedResultList (runClaudeModel ext (some gs) log prompt responses abortTime).exit
        (runClaudeModel ext (some gs) log prompt responses abortTime).iters ∧
    completedList (runClaudeModel ext (some gs) log prompt responses abortTime).events =
      expectedCompletedList (runClaudeModel ext (some gs) log prompt responses abortTime).exit ∧
    statusErrorList (runClaudeModel ext (some gs) log prompt responses abortTime).events =
      statusErrorList
        (outerCatchEvents (runClaudeModel ext (some gs) log prompt responses abortTime).exit
          (runClaudeModel ext (some gs) log prompt responses abortTime).iters) ∧
    (∀ txt,
      (runClaudeModel ext (some gs) log prompt responses abortTime).exit = .doneK txt →
      Event.assistantText txt ∈
        (runClaudeModel ext (some gs) log prompt responses abortTime).events) := by
  have hval := runClaudeModel_valid ext gs log prompt responses abortTime hset
  obtain ⟨r1, r2, r3, r4, r5, r6⟩ := runLoop_trace ext responses abortTime
    MAX_ITERATIONS 0 0 (buildHistory ext.sysPrompt ext.fmtPrompt log prompt)
  rw [hval]
  have o1 := outerCatch_filters
    (runLoop ext responses abortTime MAX_ITERATIONS 0 0
      (buildHistory ext.sysPrompt ext.fmtPrompt log prompt)).exit
    (runLoop ext responses abortTime MAX_ITERATIONS 0 0
      (buildHistory ext.sysPrompt ext.fmtPrompt log prompt)).iters
  refine ⟨?_, ?_, ?_, ?_⟩
  · simp only [resultList] at r1 o1 ⊢
    simp [List.filter_append, isResultEv, r1, o1.1]
  · simp only [completedList] at r2 o1 ⊢
    simp [List.filter_append, isCompletedEv, r2, o1.2]
  · simp only [statusErrorList] at r3 ⊢
    simp [List.filter_append, isStatusErrorEv, r3]
  · intro txt htxt
    have := r6 txt htxt
    simp [this]

/-! ## C3: a malformed argument string ends the session -/

/-- C3 (amended): a tool-call argument string that is not valid JSON
throws at the parse site inside the loop; the exception propagates to the
loop's outer boundary, which ends the run with exactly one status-error
event carrying the stringified cause — the remaining calls and iterations
are not executed and no terminal result or completed status is emitted.
(The failure is not confined to the single call, contrary to the claim.) -/
theorem parse_error_ends_session (ext : RunnerExt) (gs : ApiSettings)
    (log : List PersistedEvent) (prompt : String)
    (responses : List (List (Option Delta))) (abortTime : Option Nat)
    (hset : settingsValid (some gs) = true) :
    (∀ tc rest m, ext.parseJson (jsArgString tc.arguments) = .error m →
      sendToolUses ext (some tc :: rest) = ([], some m)) ∧
    (∀ m,
      (runClaudeModel ext (some gs) log prompt responses abortTime).exit = .thrownK m →
      statusErrorList (runClaudeModel ext (some gs) log prompt responses abortTime).events =
        [Event.statusError m] ∧
      resultList (runClaudeModel ext (some gs) log prompt responses abortTime).events = [] ∧
      completedList (runClaudeModel ext (some gs) log prompt responses abortTime).events = []) := by
  obtain ⟨t1, t2, t3, -⟩ :=
    runClaudeModel_trace ext gs log prompt responses abortTime hset
  refine ⟨?_, ?_⟩
  · intro tc rest m hp
    simp [sendToolUses, hp]
  · intro m hm
    rw [hm] at t1 t2 t3
    exact ⟨by rw [t3]; rfl, by rw [t1]; rfl, by rw [t2]; rfl⟩

/-- C3 (counterexample): the claim as stated fails on the code.  A run
whose first response carries the malformed argument string `{` ends the
whole session: a status-error event is emitted, no tool-result event is
produced for the failing call, and the second (plain) response is never
processed — no terminal result and no completed status appear. -/
theorem parse_error_counterexample :
    (runClaudeModel ext0 (some gs0) [] "hi" badResponses none).exit =
      .thrownK "SyntaxError: bad JSON" ∧
    statusErrorList (runClaudeModel ext0 (some gs0) [] "hi" badResponses none).events =
      [Event.statusError "SyntaxError: bad JSON"] ∧
    toolResultEvList (runClaudeModel ext0 (some gs0) [] "hi" badResponses none).events = [] ∧
    resultList (runClaudeModel ext0 (some gs0) [] "hi" badResponses none).events = [] ∧
    completedList (runClaudeModel ext0 (some gs0) [] "hi" badResponses none).events = [] := by
  refine ⟨by decide, by decide, by decide, by decide, by decide⟩

/-! ## C6: a zero-tool-call response terminates the run -/

/-- C6 (amended): whenever the loop exits through the zero-tool-call
branch it emits the final assistant-message event and exactly one
terminal result event with `is_error:false` carrying the full assembled
text and the turn count, and marks the session completed; no error-status
event appears in the run — unless the zero-tool-call response lands
exactly on iteration 50, in which case the post-loop cap check
additionally throws and an error-status event mentioning the iteration
limit follows the terminal result. -/
theorem zero_toolcalls_done (ext : RunnerExt) (gs : ApiSettings)
    (log : List PersistedEvent) (prompt : String)
    (responses : List (List (Option Delta))) (abortTime : Option Nat)
    (hset : settingsValid (some gs) = true) :
    ∀ txt,
      (runClaudeModel ext (some gs) log prompt responses abortTime).exit = .doneK txt →
      resultList (runClaudeModel ext (some gs) log prompt responses abortTime).events =
        [Event.resultEv false txt
          (runClaudeModel ext (some gs) log prompt responses abortTime).iters] ∧
      completedList (runClaudeModel ext (some gs) log prompt responses abortTime).events =
        [Event.statusCompleted] ∧
      Event.assistantText txt ∈
        (runClaudeModel ext (some gs) log prompt responses abortTime).events ∧
      ((runClaudeModel ext (some gs) log prompt responses abortTime).iters <
          MAX_ITERATIONS →
        statusErrorList
          (runClaudeModel ext (some gs) log prompt responses abortTime).events = []) := by
  obtain ⟨t1, t2, t3, t4⟩ :=
    runClaudeModel_trace ext gs log prompt responses abortTime hset
  intro txt htxt
  rw [htxt] at t1 t2 t3
  refine ⟨by rw [t1]; rfl, by rw [t2]; rfl, t4 txt htxt, ?_⟩
  · intro hlt
    rw [t3]
    simp [outerCatchEvents, statusErrorList, Nat.not_le.2 hlt]

set_option maxHeartbeats 1600000 in
/-- C6 (counterexample): the claim as stated fails on the code.  In a run
of 49 tool-call responses followed by a plain response, the zero-tool-call
exit lands on iteration 50: the run emits the terminal result with
`is_error:false` and the completed status, and nevertheless also emits an
error-status event (`Max iterations reached`). -/
theorem done_at_cap_counterexample :
    (runClaudeModel ext0 (some gs0) [] "hi" capDoneResponses none).exit = .doneK "" ∧
    resultList (runClaudeModel ext0 (some gs0) [] "hi" capDoneResponses none).events =
      [Event.resultEv false "" 50] ∧
    completedList (runClaudeModel ext0 (some gs0) [] "hi" capDoneResponses none).events =
      [Event.statusCompleted] ∧
    statusErrorList (runClaudeModel ext0 (some gs0) [] "hi" capDoneResponses none).events =
      [Event.statusError "Error: Max iterations reached"] := by
  have hget : ∀ k, k < 49 → capDoneResponses.getD k [] = tcChunk := by
    intro k hk
    have h1 : k < (List.replicate 49 tcChunk).length := by
      simp only [List.length_replicate]; omega
    simp only [capDoneResponses]
    rw [getD_append_left [] _ _ k h1]
    exact getD_replicate_lt [] tcChunk 49 k hk
  have hget49 : capDoneResponses.getD 49 [] = [] := by
    simp only [capDoneResponses]
    exact getD_append_at_length [] [] _ 49 (by simp only [List.length_replicate])
  have hok : ∀ k, 0 ≤ k → k < 49 → iterOK ext0 (capDoneResponses.getD k []) = true := by
    intro k _ hk
    rw [hget k hk]
    decide
  obtain ⟨hexit, hiters⟩ := runLoop_done ext0 capDoneResponses MAX_ITERATIONS 0 0
    (buildHistory ext0.sysPrompt ext0.fmtPrompt [] "hi") 49 (by simp)
    (by omega) (by decide) hok (by rw [hget49]; rfl)
  rw [hget49] at hexit
  have htxt : assembledText ext0.genSeed [] = "" := rfl
  rw [htxt] at hexit
  obtain ⟨t1, t2, t3, -⟩ :=
    runClaudeModel_trace ext0 gs0 [] "hi" capDoneResponses none (by decide)
  have hexit' : (runClaudeModel ext0 (some gs0) [] "hi" capDoneResponses none).exit =
      .doneK "" :=
    (runClaudeModel_exit ext0 gs0 [] "hi" capDoneResponses none (by decide)).trans hexit
  have hiters' : (runClaudeModel ext0 (some gs0) [] "hi" capDoneResponses none).iters =
      50 :=
    (runClaudeModel_iters ext0 gs0 [] "hi" capDoneResponses none (by decide)).trans hiters
  rw [hexit'] at t1 t2 t3
  rw [hiters'] at t1 t3
  refine ⟨hexit', by rw [t1]; rfl, by rw [t2]; rfl, by rw [t3]; rfl⟩

/-! ## C7: the iteration cap terminates the loop with an error -/

/-- C7: when every one of the 50 responses assembles at least one usable
tool call and no abort is scheduled, the loop performs exactly 50
iterations, terminates, and the run ends with exactly one error-status
event whose message names the iteration limit; no terminal result and no
completed status are emitted — the capped run is not reported as a
success. -/
theorem iteration_cap_error (ext : RunnerExt) (gs : ApiSettings)
    (log : List PersistedEvent) (prompt : String)
    (responses : List (List (Option Delta)))
    (hset : settingsValid (some gs) = true)
    (hok : ∀ k, k < MAX_ITERATIONS → iterOK ext (responses.getD k []) = true) :
    (runClaudeModel ext (some gs) log prompt responses none).iters = MAX_ITERATIONS ∧
    statusErrorList (runClaudeModel ext (some gs) log prompt responses none).events =
      [Event.statusError "Error: Max iterations reached"] ∧
    resultList (runClaudeModel ext (some gs) log prompt responses none).events = [] ∧
    completedList (runClaudeModel ext (some gs) log prompt responses none).events = [] := by
  obtain ⟨hexit, hiters⟩ := runLoop_cap ext responses MAX_ITERATIONS 0 0
    (buildHistory ext.sysPrompt ext.fmtPrompt log prompt) (by simp)
    (fun k _ hk => hok k hk)
  obtain ⟨t1, t2, t3, -⟩ :=
    runClaudeModel_trace ext gs log prompt responses none hset
  have hexit' : (runClaudeModel ext (some gs) log prompt responses none).exit = .capK :=
    (runClaudeModel_exit ext gs log prompt responses none hset).trans hexit
  have hiters' : (runClaudeModel ext (some gs) log prompt responses none).iters =
      MAX_ITERATIONS :=
    (runClaudeModel_iters ext gs log prompt responses none hset).trans hiters
  rw [hexit'] at t1 t2 t3
  rw [hiters'] at t1 t3
  refine ⟨hiters', by rw [t3]; rfl, by rw [t1]; rfl, by rw [t2]; rfl⟩

/-- C7 (witness): the spec's scenario — a model returning one tool call on
all 50 iterations.  The hypotheses of `iteration_cap_error` are discharged
at this concrete input. -/
theorem iteration_cap_error_witness :
    settingsValid (some gs0) = true ∧
    statusErrorList (runClaudeModel ext0 (some gs0) [] "hi" cap50Responses none).events =
      [Event.statusError "Error: Max iterations reached"] ∧
    resultList (runClaudeModel ext0 (some gs0) [] "hi" cap50Responses none).events = [] ∧
    (runClaudeModel ext0 (some gs0) [] "hi" cap50Responses none).iters = 50 := by
  have hok50 : ∀ k, k < MAX_ITERATIONS → iterOK ext0 (cap50Responses.getD k []) = true := by
    intro k hk
    have hkt : cap50Responses.getD k [] = tcChunk := by
      simp only [MAX_ITERATIONS] at hk
      simp only [cap50Responses]
      exact getD_replicate_lt [] tcChunk 50 k hk
    rw [hkt]
    decide
  have h := iteration_cap_error ext0 gs0 [] "hi" cap50Responses (by decide) hok50
  exact ⟨by decide, h.2.1, h.2.2.1, h.1⟩

/-! ## C8: abort handling -/

/-- C8 (amended): the abort flag is polled between stream chunks and
between tool-call executions (and at the loop guard), and an in-progress
tool call is never interrupted; when the loop exits through the abort
path no terminal result and no completed status are emitted (and, below
the cap, no error status either) — but when the abort lands during a
stream that has assembled no tool-call fragments, the loop falls through
the zero-tool-call branch and emits the normal terminal result and
completed status despite the abort request. -/
theorem abort_no_result_unless_done (ext : RunnerExt) (gs : ApiSettings)
    (log : List PersistedEvent) (prompt : String)
    (responses : List (List (Option Delta))) (n : Nat)
    (hset : settingsValid (some gs) = true) :
    ((runClaudeModel ext (some gs) log prompt responses (some n)).exit = .abortedK →
      resultList (runClaudeModel ext (some gs) log prompt responses (some n)).events = [] ∧
      completedList (runClaudeModel ext (some gs) log prompt responses (some n)).events = [] ∧
      ((runClaudeModel ext (some gs) log prompt responses (some n)).iters < MAX_ITERATIONS →
        statusErrorList
          (runClaudeModel ext (some gs) log prompt responses (some n)).events = [])) ∧
    (∀ txt,
      (runClaudeModel ext (some gs) log prompt responses (some n)).exit = .doneK txt →
      resultList (runClaudeModel ext (some gs) log prompt responses (some n)).events =
        [Event.resultEv false txt
          (runClaudeModel ext (some gs) log prompt responses (some n)).iters] ∧
      completedList (runClaudeModel ext (some gs) log prompt responses (some n)).events =
        [Event.statusCompleted]) := by
  obtain ⟨t1, t2, t3, -⟩ :=
    runClaudeModel_trace ext gs log prompt responses (some n) hset
  refine ⟨?_, ?_⟩
  · intro hab
    rw [hab] at t1 t2 t3
    refine ⟨by rw [t1]; rfl, by rw [t2]; rfl, ?_⟩
    intro hlt
    rw [t3]
    simp [outerCatchEvents, statusErrorList, Nat.not_le.2 hlt]
  · intro txt htxt
    rw [htxt] at t1 t2
    exact ⟨by rw [t1]; rfl, by rw [t2]; rfl⟩

/-- C8 (witness): an abort observed between the two executions of a
two-call response leaves the loop through the abort path — no terminal
result, no completed status, no error status. -/
theorem abort_no_result_unless_done_witness :
    settingsValid (some gs0) = true ∧
    (runClaudeModel ext0 (some gs0) [] "hi" twoCallResponses (some 3)).exit = .abortedK ∧
    resultList (runClaudeModel ext0 (some gs0) [] "hi" twoCallResponses (some 3)).events = [] ∧
    completedList (runClaudeModel ext0 (some gs0) [] "hi" twoCallResponses (some 3)).events
      = [] := by
  have h := (abort_no_result_unless_done ext0 gs0 [] "hi" twoCallResponses 3
    (by decide)).1 (by decide)
  exact ⟨by decide, by decide, h.1, h.2.1⟩

/-- C8 (counterexample): the claim as stated fails on the code.  With the
abort flag set before the first stream poll and a response carrying no
tool-call fragments, the run nevertheless emits a terminal result event
(`is_error:false`) and a completed status: the abort did not suppress the
terminal result. -/
theorem abort_emits_result_counterexample :
    (runClaudeModel ext0 (some gs0) [] "hi" helloResponses (some 1)).exit = .doneK "" ∧
    resultList (runClaudeModel ext0 (some gs0) [] "hi" helloResponses (some 1)).events =
      [Event.resultEv false "" 1] ∧
    completedList (runClaudeModel ext0 (some gs0) [] "hi" helloResponses (some 1)).events =
      [Event.statusCompleted] := by
  refine ⟨by decide, by decide, by decide⟩

/-- C3 (witness): a concrete run with the malformed argument string `{`:
the parse throws, the send loop rethrows, and the run ends with the one
status-error event. -/
theorem parse_error_ends_session_witness :
    settingsValid (some gs0) = true ∧
    ext0.parseJson (jsArgString "\x7b") = .error "SyntaxError: bad JSON" ∧
    sendToolUses ext0 [some ⟨"c1", "Read", "\x7b"⟩] = ([], some "SyntaxError: bad JSON") ∧
    statusErrorList (runClaudeModel ext0 (some gs0) [] "hi" badResponses none).events =
      [Event.statusError "SyntaxError: bad JSON"] ∧
    completedList (runClaudeModel ext0 (some gs0) [] "hi" badResponses none).events = [] := by
  have h := parse_error_ends_session ext0 gs0 [] "hi" badResponses none (by decide)
  refine ⟨by decide, rfl, ?_, ?_, ?_⟩
  · exact h.1 ⟨"c1", "Read", "\x7b"⟩ [] "SyntaxError: bad JSON" rfl
  · exact (h.2 "SyntaxError: bad JSON" (by decide)).1
  · exact (h.2 "SyntaxError: bad JSON" (by decide)).2.2

/-- C6 (witness): a run whose single response has text and no tool calls
finishes at iteration 1 with the assembled text, one terminal result, a
completed status and no error status. -/
theorem zero_toolcalls_done_witness :
    settingsValid (some gs0) = true ∧
    (runClaudeModel ext0 (some gs0) [] "hi" helloResponses none).exit = .doneK "hello" ∧
    resultList (runClaudeModel ext0 (some gs0) [] "hi" helloResponses none).events =
      [Event.resultEv false "hello" 1] ∧
    completedList (runClaudeModel ext0 (some gs0) [] "hi" helloResponses none).events =
      [Event.statusCompleted] ∧
    Event.assistantText "hello" ∈
      (runClaudeModel ext0 (some gs0) [] "hi" helloResponses none).events ∧
    statusErrorList (runClaudeModel ext0 (some gs0) [] "hi" helloResponses none).events =
      [] := by
  have h := zero_toolcalls_done ext0 gs0 [] "hi" helloResponses none (by decide)
    "hello" (by decide)
  have hi : (runClaudeModel ext0 (some gs0) [] "hi" helloResponses none).iters = 1 := by
    decide
  refine ⟨by decide, by decide, ?_, h.2.1, h.2.2.1, h.2.2.2 (by rw [hi]; decide)⟩
  · have h1 := h.1
    rw [hi] at h1
    exact h1

/-! ## C9: the Memory tool and the submitted schema -/

/-- C9: `getTools` implements the claimed conditional — its result
contains `Memory` exactly when `enableMemory` is set, and always contains
the eight base tools — but the runner submits `TOOLS` (the unfiltered
definition list) with every model request, so the submitted schema
contains `Memory` regardless of the flag: the code contradicts its own
`getTools` machinery. -/
theorem request_tools_memory_code_bug :
    (∀ st : ApiSettings,
      (((getTools (some st)).map ToolDefinition.name).contains "Memory") =
        st.enableMemory) ∧
    ((getTools none).map ToolDefinition.name =
      ["Bash", "Read", "Write", "Edit", "Glob", "Grep", "WebSearch",
       "ExtractPageContent"]) ∧
    ((getTools (some gs0)).map ToolDefinition.name =
      ["Bash", "Read", "Write", "Edit", "Glob", "Grep", "WebSearch",
       "ExtractPageContent"]) ∧
    requestToolSchema.map ToolDefinition.name = registeredToolNames := by
  refine ⟨?_, by decide, by decide, by decide⟩
  intro st
  cases h : st.enableMemory
  · simp [getTools, h]
  · simp only [getTools, h, Bool.not_true, Bool.false_eq_true, if_false]
    decide

/-! ## C10: base-URL normalisation -/

/-- C10: the base URL used to construct the client is the configured value
normalised: a value already ending in `/v1` is used unchanged, otherwise
one trailing slash is stripped and `/v1` appended; the result always ends
in `/v1`. -/
theorem baseURL_normalized_v1 (ext : RunnerExt) (gs : ApiSettings)
    (log : List PersistedEvent) (prompt : String)
    (responses : List (List (Option Delta))) (abortTime : Option Nat)
    (hset : settingsValid (some gs) = true) :
    (runClaudeModel ext (some gs) log prompt responses abortTime).baseURL =
      some (normalizeBaseURL gs.baseUrl) ∧
    (∀ s, strEndsWith (normalizeBaseURL s) "/v1" = true) ∧
    (∀ s, strEndsWith s "/v1" = true → normalizeBaseURL s = s) ∧
    (∀ s, strEndsWith s "/v1" = false →
      normalizeBaseURL s = stripTrailingSlash s ++ "/v1") := by
  refine ⟨?_, ?_, ?_, ?_⟩
  · rw [runClaudeModel_valid ext gs log prompt responses abortTime hset]
  · intro s
    cases h : strEndsWith s "/v1"
    · simp only [normalizeBaseURL, h, Bool.not_false, if_pos]
      exact strEndsWith_append_self _ _
    · simp [normalizeBaseURL, h]
  · intro s h
    simp [normalizeBaseURL, h]
  · intro s h
    simp [normalizeBaseURL, h]

/-- C10 (witness): concrete endpoint strings through the normalisation,
and a concrete run's recorded base URL. -/
theorem baseURL_normalized_v1_witness :
    settingsValid (some gs0) = true ∧
    (runClaudeModel ext0 (some gs0) [] "hi" helloResponses none).baseURL =
      some "http://localhost:1234/v1" ∧
    normalizeBaseURL "http://h/v1" = "http://h/v1" ∧
    normalizeBaseURL "http://h/" = "http://h/v1" ∧
    strEndsWith (normalizeBaseURL "http://h") "/v1" = true := by
  have h := baseURL_normalized_v1 ext0 gs0 [] "hi" helloResponses none (by decide)
  refine ⟨by decide, ?_, ?_, ?_, h.2.1 "http://h"⟩
  · exact h.1.trans (by decide)
  · exact h.2.2.1 "http://h/v1" (by decide)
  · exact (h.2.2.2 "http://h/" (by decide)).trans (by decide)

end LocalDesk
